import Mathlib

/-
  Verification development for the shadow rendering engine of
  `useShadowGenerator.ts` (ShadowForge).

  The engine is embedded shallowly:
  * pixel arithmetic (alpha blending, the height-field warp loop, gradient
    evaluation) is carried out over `ℚ`, mirroring the source's arithmetic
    exactly (canvas byte stores are modelled exactly rather than rounded,
    which is immaterial to the properties proved here);
  * the trigonometric light model (`K`, shear factors) is embedded over `ℝ`;
  * canvas blur filters are browser primitives, so the blurred alpha values
    entering the penumbra compositor are universally quantified parameters
    (`u` for the 1px-blurred umbra, `b` for the lightSize-blurred penumbra);
  * the drawing commands issued by `renderCanvas` are reified as a list of
    `DrawOp`s so that presence/absence of draws can be stated.
-/

namespace ShadowGen

/-- Render layer modes of `renderCanvas` / `triggerDownload`. -/
inductive Layer where
  | composite
  | shadow
  | mask
deriving DecidableEq

/-- Drawing commands issued by `renderCanvas` on the caller's context. -/
inductive DrawOp where
  | drawBackground
  | drawShadowLayer
  | drawCutout (x y w h : ℚ)
  | strokeBoundingBox (x y w h : ℚ)
  | drawPivotMarker (px py : ℚ)
deriving DecidableEq

/-- `Transform` record of the hook: normalized anchor position and scale. -/
structure Transform where
  x : ℚ
  y : ℚ
  scale : ℚ
deriving DecidableEq

/-- JS `arr[i]` on a flat depth-data array, with the `|| 0` default applied
by the caller of the feet lookup: out-of-range (including negative) indices
yield 0. -/
def nthD (l : List ℕ) (i : ℤ) : ℕ :=
  if 0 ≤ i then ((l.get? i.toNat).getD 0) else 0

/-- `skyThreshold` constant of the warp loop. -/
def skyThreshold : ℕ := 25

/-- `skyFadeRange` constant of the warp loop. -/
def skyFadeRange : ℕ := 25

/-- Sky mask opacity computed per destination pixel from `rawDepth`. -/
def skyOpacity (rawDepth : ℕ) : ℚ :=
  if rawDepth < skyThreshold then 0
  else if rawDepth < skyThreshold + skyFadeRange then
    ((rawDepth : ℚ) - (skyThreshold : ℚ)) / (skyFadeRange : ℚ)
  else 1

/-- `groundVal = depthData[feetIdx] || 0` where
`feetIdx = (floor(py) * width + floor(px)) * 4`. -/
def groundVal (depthData : List ℕ) (width : ℕ) (px py : ℚ) : ℕ :=
  nthD depthData ((⌊py⌋ * (width : ℤ) + ⌊px⌋) * 4)

/-- Bilinear interpolation of the flat silhouette's alpha at `(srcX, srcY)`,
exactly as in the warp loop's four-sample blend. -/
def bilinear (flatA : ℤ → ℤ → ℚ) (srcX srcY : ℚ) : ℚ :=
  let x0 := ⌊srcX⌋
  let y0 := ⌊srcY⌋
  let dx := srcX - (x0 : ℚ)
  let dy := srcY - (y0 : ℚ)
  let top := flatA x0 y0 * (1 - dx) + flatA (x0 + 1) y0 * dx
  let bot := flatA x0 (y0 + 1) * (1 - dx) + flatA (x0 + 1) (y0 + 1) * dx
  top * (1 - dy) + bot * dy

/-- Body of the warp loop for one destination pixel `(rX, rY)`.
`gVal` is the ground reference, `heightScale = depthStrength / 255`,
`tanE`, `vX`, `vY` are the light constants, `flatA` the flat silhouette's
alpha channel.  A fresh `createImageData` is all-zero, so every path that
does not store leaves alpha 0. -/
def warpPixel (depthData : List ℕ) (width height : ℕ) (gVal : ℕ)
    (heightScale tanE vX vY : ℚ) (flatA : ℤ → ℤ → ℚ) (rX rY : ℤ) : ℚ :=
  let rawDepth := nthD depthData ((rY * (width : ℤ) + rX) * 4)
  let sky := skyOpacity rawDepth
  if 0 < sky then
    let pixelHeight := ((rawDepth : ℚ) - (gVal : ℚ)) * heightScale
    let shiftLen := pixelHeight / tanE
    let srcX := (rX : ℚ) - vX * shiftLen
    let srcY := (rY : ℚ) - vY * shiftLen
    if 0 ≤ srcX ∧ srcX < (width : ℚ) - 1 ∧ 0 ≤ srcY ∧ srcY < (height : ℚ) - 1 then
      let finalAlpha := bilinear flatA srcX srcY
      if 10 < finalAlpha then finalAlpha * sky else 0
    else 0
  else 0

/-- The height-field warp stage: runs the warp loop only when a depth image
is present and `depthStrength > 0`; otherwise the flat canvas is copied
unchanged (`wCtx.drawImage(flatCanvas, 0, 0)`). -/
def warpStage (depthData? : Option (List ℕ)) (depthStrength : ℚ)
    (width height : ℕ) (px py tanE vX vY : ℚ) (flatA : ℤ → ℤ → ℚ) :
    ℤ → ℤ → ℚ :=
  match depthData? with
  | some depthData =>
      if 0 < depthStrength then
        warpPixel depthData width height (groundVal depthData width px py)
          (depthStrength / 255) tanE vX vY flatA
      else flatA
  | none => flatA

/-- Evaluation of a canvas linear gradient's alpha stop list at offset `t`:
clamped to the first stop below its offset and to the last stop above it,
linearly interpolated between consecutive stops. -/
def gradEval : List (ℚ × ℚ) → ℚ → ℚ
  | [], _ => 0
  | [(_, a)], _ => a
  | (o1, a1) :: (o2, a2) :: rest, t =>
    if t ≤ o1 then a1
    else if t ≤ o2 then a1 + (t - o1) / (o2 - o1) * (a2 - a1)
    else gradEval ((o2, a2) :: rest) t

/-- Stop list of the final contact gradient (`alphaMask`):
opaque at the pivot, 0.9 at 60% of the shadow length, transparent at the
full shadow length.  This fill runs with `fsCtx.filter` reset to `none`,
so its stops apply exactly. -/
def contactStops : List (ℚ × ℚ) := [(0, 1), (6/10, 9/10), (1, 0)]

/-- Alpha of the final shadow layer at a point lying at distance `d` from
the pivot along the shadow direction.  `u` is the 1px-blurred warped alpha
there; `bm` is the penumbra layer's alpha there after its own
`destination-in` mask (the `lightSize`-blurred warped alpha times the
`blurMask` gradient fill, which is itself painted with `bCtx.filter` still
set to `blur(lightSize px)` — both blurs are browser primitives, so the
masked result enters as one abstract value).  The umbra is drawn at
`globalAlpha = opacity`; when `lightSize > 0` the penumbra layer is drawn
over it at `globalAlpha = 0.6`.  `fsCtx.globalAlpha` is never reset before
the final `destination-in` `fillRect`, so that fill's source alpha is the
leftover globalAlpha (0.6 if the penumbra branch ran, `opacity` otherwise)
times `contactStops` evaluated at `d / shadowLen`, and `destination-in`
multiplies the layer by it. -/
def finalShadowAlphaAt (opacity lightSize u bm shadowLen d : ℚ) : ℚ :=
  let base := opacity * u
  let withPen :=
    if 0 < lightSize then (6/10) * bm + base * (1 - (6/10) * bm) else base
  let leftoverGA := if 0 < lightSize then (6/10) else opacity
  withPen * (leftoverGA * gradEval contactStops (d / shadowLen))

/-- Premultiplied RGBA pixel over `ℚ`. -/
structure Pixel where
  r : ℚ
  g : ℚ
  b : ℚ
  a : ℚ
deriving DecidableEq

/-- Source-over compositing of premultiplied pixels. -/
def over (s d : Pixel) : Pixel :=
  ⟨s.r + (1 - s.a) * d.r, s.g + (1 - s.a) * d.g,
   s.b + (1 - s.a) * d.b, s.a + (1 - s.a) * d.a⟩

/-- A shadow-layer pixel: black with the given alpha (premultiplied). -/
def shadowPix (alpha : ℚ) : Pixel := ⟨0, 0, 0, alpha⟩

/-- Composite-mode pixel: background, then shadow layer, then subject. -/
def compositeWithShadow (bg cut : Pixel) (shadowAlpha : ℚ) : Pixel :=
  over cut (over (shadowPix shadowAlpha) bg)

/-- The same pixel with the shadow layer left out entirely. -/
def bgSubjectOnly (bg cut : Pixel) : Pixel := over cut bg

/-- Drawing commands issued by `renderCanvas` for a given layer mode.
Both assets are required up front; the background is drawn only in
composite mode; mask mode returns right after drawing the cutout; the
bounding outline and the pivot marker are drawn whenever
`layer === 'composite'`. -/
def renderOps (hasBg hasCutout : Bool) (layer : Layer)
    (t : Transform) (cutW cutH width height : ℚ) : List DrawOp :=
  if hasBg = false ∨ hasCutout = false then []
  else
    let w := cutW * t.scale
    let h := cutH * t.scale
    let px := t.x * width
    let py := t.y * height
    let x := px - w / 2
    let y := py - h
    let bgOps := if layer = Layer.composite then [DrawOp.drawBackground] else []
    if layer = Layer.mask then bgOps ++ [DrawOp.drawCutout x y w h]
    else
      bgOps ++ [DrawOp.drawShadowLayer] ++
        (if layer = Layer.composite then
          [DrawOp.drawCutout x y w h, DrawOp.strokeBoundingBox x y w h,
           DrawOp.drawPivotMarker px py]
        else [])

/-- `triggerDownload`: bails out without a background, otherwise renders the
requested layer into a fresh export canvas with `renderCanvas`. -/
def triggerDownloadOps (hasBg hasCutout : Bool) (layer : Layer)
    (t : Transform) (cutW cutH width height : ℚ) : List DrawOp :=
  if hasBg = false then []
  else renderOps hasBg hasCutout layer t cutW cutH width height

/-- `handleMouseDown`: hit-test of the click against the subject's placement
rectangle (in canvas pixels); on a hit, the normalized drag offset is
recorded. -/
def mouseDownOffset (t : Transform) (cutW cutH width height
    clickNormX clickNormY : ℚ) : Option (ℚ × ℚ) :=
  let w := cutW * t.scale
  let h := cutH * t.scale
  let px := t.x * width
  let py := t.y * height
  let boxX := px - w / 2
  let boxY := py - h
  let mouseX := clickNormX * width
  let mouseY := clickNormY * height
  if boxX ≤ mouseX ∧ mouseX ≤ boxX + w ∧ boxY ≤ mouseY ∧ mouseY ≤ boxY + h
  then some (t.x - clickNormX, t.y - clickNormY)
  else none

/-- `handleMouseMove`: the new transform after a drag move; no clamping. -/
def mouseMoveTransform (prev : Transform) (mouseNormX mouseNormY
    offX offY : ℚ) : Transform :=
  { prev with x := mouseNormX + offX, y := mouseNormY + offY }

/-- Anchor x in absolute pixels: `px = transform.x * width`. -/
def anchorPx (t : Transform) (width : ℚ) : ℚ := t.x * width

/-- Anchor y in absolute pixels: `py = transform.y * height`. -/
def anchorPy (t : Transform) (height : ℚ) : ℚ := t.y * height

/-- A coordinate is a valid in-frame pixel coordinate. -/
def inFrame (p size : ℚ) : Prop := 0 ≤ p ∧ p < size

/-- The pivot's floored pixel coordinate lies inside the frame. -/
def pivotInBounds (width height : ℕ) (px py : ℚ) : Prop :=
  0 ≤ ⌊px⌋ ∧ ⌊px⌋ < (width : ℤ) ∧ 0 ≤ ⌊py⌋ ∧ ⌊py⌋ < (height : ℤ)

end ShadowGen

namespace ShadowGen

noncomputable section

/-- Degrees to radians, `deg * π / 180`. -/
def radOfDeg (d : ℝ) : ℝ := d * Real.pi / 180

/-- `radElev = (Math.max(10, elevation) * π) / 180`: the elevation is
clamped to the 10° floor before any derived quantity is computed. -/
def radElev (elevation : ℝ) : ℝ := radOfDeg (max 10 elevation)

/-- `tanElev = Math.tan(radElev)`. -/
def tanOfElev (elevation : ℝ) : ℝ := Real.tan (radElev elevation)

/-- Shadow-length factor `K = 1 / tanElev`. -/
def K (elevation : ℝ) : ℝ := 1 / tanOfElev elevation

/-- Light direction x-component `vecX = cos(radAngle)`. -/
def vecX (angle : ℝ) : ℝ := Real.cos (radOfDeg angle)

/-- Light direction y-component `vecY = sin(radAngle)`. -/
def vecY (angle : ℝ) : ℝ := Real.sin (radOfDeg angle)

/-- `shearX = -K * vecX`. -/
def shearX (angle elevation : ℝ) : ℝ := -(K elevation) * vecX angle

/-- `shearY = -K * vecY`. -/
def shearY (angle elevation : ℝ) : ℝ := -(K elevation) * vecY angle

end

/-- C2: the height-field warp stage is the identity on the flat silhouette's
alpha channel whenever `depthStrength = 0` or the depth buffer is absent:
for every pixel, the warped alpha equals the flat alpha exactly. -/
theorem warpStage_identity (depthData? : Option (List ℕ)) (depthStrength : ℚ)
    (width height : ℕ) (px py tanE vX vY : ℚ) (flatA : ℤ → ℤ → ℚ)
    (h : depthStrength = 0 ∨ depthData? = none) :
    warpStage depthData? depthStrength width height px py tanE vX vY flatA
      = flatA := by
  rcases h with h | h
  · cases depthData? with
    | none => rfl
    | some d => simp [warpStage, h]
  · subst h
    rfl

/-- Witness for C2: a concrete depth buffer with `depthStrength = 0` leaves a
concrete flat alpha channel untouched. -/
theorem warpStage_identity_witness :
    warpStage (some [1, 2, 3, 255]) 0 4 4 2 3 1 1 1 (fun _ _ => 7)
      = (fun _ _ => (7 : ℚ)) :=
  warpStage_identity _ _ _ _ _ _ _ _ _ _ (Or.inl rfl)

/-- C3: in the depth-warp loop, a destination pixel whose raw depth is
strictly below `skyThreshold` (25) gets output alpha exactly 0, whatever
the ground value, height scale, light constants and flat alpha are. -/
theorem warp_sky_mask_zero (depthData : List ℕ) (width height gVal : ℕ)
    (heightScale tanE vX vY : ℚ) (flatA : ℤ → ℤ → ℚ) (rX rY : ℤ)
    (hraw : nthD depthData ((rY * (width : ℤ) + rX) * 4) < skyThreshold) :
    warpPixel depthData width height gVal heightScale tanE vX vY flatA rX rY
      = 0 := by
  simp only [warpPixel, skyOpacity, if_pos hraw]
  norm_num

/-- Witness for C3: pixel (0,0) over a depth value of 5 (< 25) gets alpha 0
even though the flat alpha there is 200. -/
theorem warp_sky_mask_zero_witness :
    warpPixel [5, 0, 0, 255] 4 4 0 1 1 1 1 (fun _ _ => 200) 0 0 = 0 :=
  warp_sky_mask_zero _ _ _ _ _ _ _ _ _ 0 0 (by decide)

/-- C9: when the background or the cutout is absent, `renderCanvas` is a
no-op: it issues no drawing command, for every layer mode and every
parameter combination. -/
theorem renderOps_missing_asset (hasBg hasCutout : Bool) (layer : Layer)
    (t : Transform) (cutW cutH width height : ℚ)
    (h : hasBg = false ∨ hasCutout = false) :
    renderOps hasBg hasCutout layer t cutW cutH width height = [] := by
  unfold renderOps
  rw [if_pos h]

/-- Witness for C9: no background, cutout present, composite mode. -/
theorem renderOps_missing_asset_witness :
    renderOps false true Layer.composite ⟨1/2, 4/5, 1/2⟩ 100 100 200 200 = [] :=
  renderOps_missing_asset _ _ _ _ _ _ _ _ (Or.inl rfl)

/-- C4: evaluation of the export path at a concrete input.  `triggerDownload`
with `layer = composite` and both assets present issues the translucent
bounding-outline stroke and the pivot-marker draw — the exported composite
is not background + shadow + subject only. -/
theorem export_composite_contains_ui_marker :
    DrawOp.drawPivotMarker 50 80 ∈
      triggerDownloadOps true true Layer.composite ⟨1/2, 4/5, 1/2⟩
        100 100 100 100 ∧
    DrawOp.strokeBoundingBox 25 30 50 50 ∈
      triggerDownloadOps true true Layer.composite ⟨1/2, 4/5, 1/2⟩
        100 100 100 100 := by
  norm_num [triggerDownloadOps, renderOps,
    show Layer.composite ≠ Layer.mask from by decide]

/-- C10 counterexample: a pivot whose floored coordinate lies outside the
frame (x = 2 with width 2) does not make `groundVal` default to 0 — the
flat feet index aliases into the next row of the depth data and reads 77. -/
theorem groundVal_alias_counterexample :
    ¬ pivotInBounds 2 2 2 0 ∧
    groundVal [0,0,0,255, 0,0,0,255, 77,0,0,255, 0,0,0,255] 2 2 0 = 77 ∧
    groundVal [0,0,0,255, 0,0,0,255, 77,0,0,255, 0,0,0,255] 2 2 0 ≠ 0 := by
  refine ⟨?_, ?_, ?_⟩ <;> · simp only [pivotInBounds, groundVal, nthD]; decide

/-- C10 amended: when the flattened feet index falls outside the depth data
array (negative, or at/after its end), `groundVal` defaults to 0 and, with
the warp active, the stage computes every pixel with ground reference 0,
i.e. with relative height `rawDepth * heightScale`. -/
theorem groundVal_out_of_array (depthData : List ℕ) (width height : ℕ)
    (depthStrength px py tanE vX vY : ℚ) (flatA : ℤ → ℤ → ℚ)
    (hds : 0 < depthStrength)
    (hout : (⌊py⌋ * (width : ℤ) + ⌊px⌋) * 4 < 0 ∨
      (depthData.length : ℤ) ≤ (⌊py⌋ * (width : ℤ) + ⌊px⌋) * 4) :
    groundVal depthData width px py = 0 ∧
    warpStage (some depthData) depthStrength width height px py tanE vX vY flatA
      = warpPixel depthData width height 0 (depthStrength / 255)
          tanE vX vY flatA := by
  have hg : groundVal depthData width px py = 0 := by
    unfold groundVal nthD
    rcases hout with h | h
    · rw [if_neg (not_le.mpr h)]
    · have h0 : (0 : ℤ) ≤ (⌊py⌋ * (width : ℤ) + ⌊px⌋) * 4 :=
        le_trans (Int.natCast_nonneg _) h
      rw [if_pos h0]
      have hlen : depthData.length ≤ ((⌊py⌋ * (width : ℤ) + ⌊px⌋) * 4).toNat := by
        omega
      rw [List.get?_eq_none.mpr hlen]
      rfl
  refine ⟨hg, ?_⟩
  simp [warpStage, if_pos hds, hg]

/-- Witness for C10 amended: a one-entry depth array with the pivot far
below the frame. -/
theorem groundVal_out_of_array_witness :
    groundVal [9] 2 5 5 = 0 ∧
    warpStage (some [9]) 1 2 2 5 5 1 1 1 (fun _ _ => 3)
      = warpPixel [9] 2 2 0 (1/255) 1 1 1 (fun _ _ => 3) :=
  groundVal_out_of_array _ _ _ _ _ _ _ _ _ _ (by decide) (Or.inr (by decide))

/-- C8 counterexample: a legitimate drag (the mouse-down hit test succeeds)
moves the anchor out of the frame: starting from the default transform with
scale 1, clicking at normalized (1/10, 1/2) and dragging to (9/10, 1/2)
yields x = 13/10, whose anchor pixel 130 is outside a 100-px frame. -/
theorem drag_moves_anchor_out_of_frame :
    mouseDownOffset ⟨1/2, 4/5, 1⟩ 100 100 100 100 (1/10) (1/2)
      = some (2/5, 3/10) ∧
    ¬ inFrame
        (anchorPx (mouseMoveTransform ⟨1/2, 4/5, 1⟩ (9/10) (1/2) (2/5) (3/10))
          100)
        100 := by
  constructor
  · norm_num [mouseDownOffset]
  · norm_num [inFrame, anchorPx, mouseMoveTransform]

/-- C8 amended: the anchor maps to a valid in-frame pixel coordinate
whenever the transform's normalized coordinates lie in [0, 1) — drag-move
updates perform no clamping, so the invariant is conditional on the
coordinates staying normalized rather than holding for every drag. -/
theorem anchor_in_frame_of_normalized (t : Transform) (width height : ℚ)
    (hx0 : 0 ≤ t.x) (hx1 : t.x < 1) (hy0 : 0 ≤ t.y) (hy1 : t.y < 1)
    (hw : 0 < width) (hh : 0 < height) :
    inFrame (anchorPx t width) width ∧ inFrame (anchorPy t height) height := by
  unfold inFrame anchorPx anchorPy
  refine ⟨⟨mul_nonneg hx0 hw.le, ?_⟩, ⟨mul_nonneg hy0 hh.le, ?_⟩⟩
  · nlinarith
  · nlinarith

/-- Witness for C8 amended: the hook's initial transform in a 100×100
frame. -/
theorem anchor_in_frame_of_normalized_witness :
    inFrame (anchorPx ⟨1/2, 4/5, 1/2⟩ 100) 100 ∧
    inFrame (anchorPy ⟨1/2, 4/5, 1/2⟩ 100) 100 :=
  anchor_in_frame_of_normalized _ _ _ (by norm_num) (by norm_num) (by norm_num)
    (by norm_num) (by norm_num) (by norm_num)

/-- C1 counterexample: with `opacity = 0` but `lightSize = 15 > 0`, the
penumbra layer is still drawn at the fixed secondary alpha 0.6 (and the
leftover `globalAlpha = 0.6` scales the contact fill), so the shadow layer
is not transparent and the composite differs from background + subject
(here at a pixel 36 px along a 100 px shadow, where the masked penumbra
layer's alpha is 1). -/
theorem opacity_zero_shadow_visible :
    compositeWithShadow ⟨1, 0, 0, 1⟩ ⟨0, 0, 0, 0⟩
        (finalShadowAlphaAt 0 15 0 1 100 36)
      ≠ bgSubjectOnly ⟨1, 0, 0, 1⟩ ⟨0, 0, 0, 0⟩ := by
  norm_num [compositeWithShadow, bgSubjectOnly, over, shadowPix,
    finalShadowAlphaAt, gradEval, contactStops, Pixel.mk.injEq]

/-- C1 amended: with global `opacity = 0` and `lightSize = 0` the shadow
layer's alpha is 0 at every pixel (the umbra is drawn at alpha 0 and the
leftover globalAlpha on the contact fill is also 0), so compositing it is
the identity and the composite equals drawing only the background and the
subject — for every angle, elevation, depthStrength and depth-buffer
contents (all of which enter only through the blurred alphas `u`, `bm`
and the distances). -/
theorem opacity_zero_shadow_transparent (opacity lightSize u bm shadowLen d : ℚ)
    (bg cut : Pixel) (hop : opacity = 0) (hls : lightSize = 0) :
    finalShadowAlphaAt opacity lightSize u bm shadowLen d = 0 ∧
    compositeWithShadow bg cut
        (finalShadowAlphaAt opacity lightSize u bm shadowLen d)
      = bgSubjectOnly bg cut := by
  subst hop
  subst hls
  have h0 : finalShadowAlphaAt 0 0 u bm shadowLen d = 0 := by
    simp [finalShadowAlphaAt]
  refine ⟨h0, ?_⟩
  rw [h0]
  show over cut (over (shadowPix 0) bg) = over cut bg
  have hbg : over (shadowPix 0) bg = bg := by
    simp [over, shadowPix]
  rw [hbg]

/-- Witness for C1 amended: concrete pixel values. -/
theorem opacity_zero_shadow_transparent_witness :
    finalShadowAlphaAt 0 0 (1/2) (1/3) 50 10 = 0 ∧
    compositeWithShadow ⟨1/2, 1/2, 1/2, 1⟩ ⟨1/4, 0, 0, 1/2⟩
        (finalShadowAlphaAt 0 0 (1/2) (1/3) 50 10)
      = bgSubjectOnly ⟨1/2, 1/2, 1/2, 1⟩ ⟨1/4, 0, 0, 1/2⟩ :=
  opacity_zero_shadow_transparent _ _ _ _ _ _ _ _ rfl rfl

/-- C5 counterexample: the claim's pivot value is false of the code.  With
`lightSize = 0`, `opacity = 1/2` and umbra alpha `u = 1`, the leftover
`globalAlpha = opacity` scales the contact fill a second time, so the pivot
alpha is `opacity² · u = 1/4`, not `opacity · u = 1/2`. -/
theorem contact_gradient_pivot_counterexample :
    finalShadowAlphaAt (1/2) 0 1 0 100 0 ≠ (1/2) * 1 := by
  norm_num [finalShadowAlphaAt, gradEval, contactStops]

/-- C5 amended: `fsCtx.globalAlpha` is never reset before the
`destination-in` contact fill, so at the pivot (gradient offset 0) the
final alpha is the leftover globalAlpha times the blended layer alpha:
`opacity² · u` when `lightSize = 0`, and
`0.6 · (0.6·bm + opacity·u·(1 − 0.6·bm))` when `lightSize > 0` (with `bm`
the masked penumbra layer's alpha at the pivot, not exactly 0 because the
mask fill is itself blurred); the alpha at distance `shadowLen` (gradient
offset 1) is exactly 0 as claimed. -/
theorem contact_gradient_endpoints (opacity lightSize u bm shadowLen : ℚ)
    (h : 0 < shadowLen) :
    (lightSize = 0 →
      finalShadowAlphaAt opacity lightSize u bm shadowLen 0
        = opacity * opacity * u) ∧
    (0 < lightSize →
      finalShadowAlphaAt opacity lightSize u bm shadowLen 0
        = (6/10) * ((6/10) * bm + opacity * u * (1 - (6/10) * bm))) ∧
    finalShadowAlphaAt opacity lightSize u bm shadowLen shadowLen = 0 := by
  have hz : shadowLen ≠ 0 := ne_of_gt h
  have hc0 : gradEval contactStops 0 = 1 := by
    norm_num [gradEval, contactStops]
  have hc1 : gradEval contactStops 1 = 0 := by
    norm_num [gradEval, contactStops]
  refine ⟨?_, ?_, ?_⟩
  · intro hls
    subst hls
    simp only [finalShadowAlphaAt, zero_div, hc0, if_neg (lt_irrefl (0 : ℚ))]
    ring
  · intro hls
    simp only [finalShadowAlphaAt, zero_div, hc0, if_pos hls]
    ring
  · by_cases hls : 0 < lightSize
    · simp only [finalShadowAlphaAt, div_self hz, hc1, if_pos hls]
      ring
    · simp only [finalShadowAlphaAt, div_self hz, hc1, if_neg hls]
      ring

/-- Witness for C5 amended: a 100 px shadow, `lightSize = 0`,
`opacity = 1/2`, umbra alpha 2/3: pivot alpha 1/4 · 2/3, end alpha 0. -/
theorem contact_gradient_endpoints_witness :
    finalShadowAlphaAt (1/2) 0 (2/3) (1/3) 100 0 = (1/2) * (1/2) * (2/3) ∧
    finalShadowAlphaAt (1/2) 0 (2/3) (1/3) 100 100 = 0 :=
  ⟨(contact_gradient_endpoints (1/2) 0 (2/3) (1/3) 100 (by norm_num)).1 rfl,
   (contact_gradient_endpoints (1/2) 0 (2/3) (1/3) 100 (by norm_num)).2.2⟩

/-- C6: for every azimuth angle and elevation, the derived shear factors
satisfy `shearX² + shearY² = K²`. -/
theorem shear_factors_norm (angle elevation : ℝ) :
    shearX angle elevation ^ 2 + shearY angle elevation ^ 2
      = K elevation ^ 2 := by
  have h := Real.sin_sq_add_cos_sq (radOfDeg angle)
  unfold shearX shearY vecX vecY
  linear_combination (K elevation ^ 2) * h

/-- The clamped elevation angle in radians is positive and below π/2 for
elevations in [10, 90). -/
lemma radElev_pos_lt {e : ℝ} (h1 : 10 ≤ e) (h2 : e < 90) :
    0 < radElev e ∧ radElev e < Real.pi / 2 := by
  unfold radElev radOfDeg
  rw [max_eq_right h1]
  have hpi := Real.pi_pos
  constructor
  · have he : (0:ℝ) < e := lt_of_lt_of_le (by norm_num) h1
    positivity
  · nlinarith

/-- `tanElev` is positive for elevations in [10, 90). -/
lemma tanOfElev_pos {e : ℝ} (h1 : 10 ≤ e) (h2 : e < 90) : 0 < tanOfElev e := by
  obtain ⟨ha, hb⟩ := radElev_pos_lt h1 h2
  exact Real.tan_pos_of_pos_of_lt_pi_div_two ha hb

/-- `K` is positive for elevations in [10, 90). -/
lemma K_pos {e : ℝ} (h1 : 10 ≤ e) (h2 : e < 90) : 0 < K e :=
  one_div_pos.mpr (tanOfElev_pos h1 h2)

/-- At elevation 90° the shadow-length factor vanishes. -/
lemma K_at_90 : K 90 = 0 := by
  unfold K tanOfElev radElev radOfDeg
  rw [max_eq_right (by norm_num : (10:ℝ) ≤ 90)]
  have h : (90:ℝ) * Real.pi / 180 = Real.pi / 2 := by ring
  rw [h, Real.tan_pi_div_two]
  norm_num

/-- `K` is strictly decreasing on elevations in [10, 90]. -/
lemma K_strictAntiOn : StrictAntiOn K (Set.Icc (10:ℝ) 90) := by
  intro x hx y hy hxy
  have hx90 : x < 90 := lt_of_lt_of_le hxy hy.2
  rcases eq_or_lt_of_le hy.2 with h90 | h90
  · rw [h90, K_at_90]
    exact K_pos hx.1 hx90
  · have htx := tanOfElev_pos hx.1 hx90
    have hlt : tanOfElev x < tanOfElev y := by
      have hradlt : radElev x < radElev y := by
        unfold radElev radOfDeg
        rw [max_eq_right hx.1, max_eq_right hy.1]
        have hpi := Real.pi_pos
        nlinarith [mul_pos (sub_pos.mpr hxy) hpi]
      have hx0 : 0 ≤ radElev x := (radElev_pos_lt hx.1 hx90).1.le
      have hy2 : radElev y < Real.pi / 2 := (radElev_pos_lt hy.1 h90).2
      exact Real.tan_lt_tan_of_nonneg_of_lt_pi_div_two hx0 hy2 hradlt
    exact one_div_lt_one_div_of_lt htx hlt

/-- `K` tends to 0 as the elevation approaches 90° from below. -/
lemma K_tendsto_zero :
    Filter.Tendsto K (nhdsWithin 90 (Set.Iio 90)) (nhds 0) := by
  have hcont : Filter.Tendsto (fun e : ℝ => e * Real.pi / 180) (nhds 90)
      (nhds (Real.pi / 2)) := by
    have hc : Continuous fun e : ℝ => e * Real.pi / 180 := by continuity
    have h90 : (90:ℝ) * Real.pi / 180 = Real.pi / 2 := by ring
    simpa [h90] using hc.tendsto 90
  have hmap : Filter.Tendsto (fun e : ℝ => e * Real.pi / 180)
      (nhdsWithin 90 (Set.Iio 90))
      (nhdsWithin (Real.pi / 2) (Set.Iio (Real.pi / 2))) := by
    apply tendsto_nhdsWithin_of_tendsto_nhds_of_eventually_within
    · exact hcont.mono_left nhdsWithin_le_nhds
    · filter_upwards [eventually_mem_nhdsWithin] with e he
      have hpi := Real.pi_pos
      have hlt : e < 90 := he
      show e * Real.pi / 180 ∈ Set.Iio (Real.pi / 2)
      simp only [Set.mem_Iio]
      nlinarith [mul_pos (sub_pos.mpr hlt) hpi]
  have htan : Filter.Tendsto (fun e : ℝ => Real.tan (e * Real.pi / 180))
      (nhdsWithin 90 (Set.Iio 90)) Filter.atTop :=
    Real.tendsto_tan_pi_div_two.comp hmap
  have hinv := htan.inv_tendsto_atTop
  have hev : (fun e : ℝ => (Real.tan (e * Real.pi / 180))⁻¹)
      =ᶠ[nhdsWithin 90 (Set.Iio 90)] K := by
    have h10 : ∀ᶠ e in nhdsWithin (90:ℝ) (Set.Iio 90), (10:ℝ) < e :=
      nhdsWithin_le_nhds (eventually_gt_nhds (by norm_num))
    filter_upwards [h10] with e he
    unfold K tanOfElev radElev radOfDeg
    rw [max_eq_right he.le, one_div]
  exact Filter.Tendsto.congr' hev hinv

/-- C7: the elevation is clamped to the 10° floor before `K` is computed
(`K` is constant at `K 10` below the floor); on [10°, 90°] `K` is strictly
decreasing (in particular bounded by its value at the floor, the sense in
which the clamp keeps it finite), and `K → 0` as the elevation approaches
90°. -/
theorem K_clamp_and_monotone :
    (∀ e : ℝ, e ≤ 10 → K e = K 10) ∧
    StrictAntiOn K (Set.Icc (10:ℝ) 90) ∧
    (∀ e : ℝ, e ≤ 90 → K e ≤ K 10) ∧
    Filter.Tendsto K (nhdsWithin 90 (Set.Iio 90)) (nhds 0) := by
  have hclamp : ∀ e : ℝ, e ≤ 10 → K e = K 10 := by
    intro e he
    unfold K tanOfElev radElev
    rw [max_eq_left he, max_self]
  refine ⟨hclamp, K_strictAntiOn, ?_, K_tendsto_zero⟩
  intro e he
  rcases le_or_lt e 10 with h | h
  · exact le_of_eq (hclamp e h)
  · exact le_of_lt (K_strictAntiOn
      (Set.mem_Icc.mpr ⟨le_rfl, by norm_num⟩)
      (Set.mem_Icc.mpr ⟨h.le, he⟩) h)

/-- Witness for C7: concrete elevations exercising the clamp, the strict
decrease and the bound. -/
theorem K_clamp_and_monotone_witness :
    K 5 = K 10 ∧ K 60 < K 30 ∧ K 85 ≤ K 10 :=
  ⟨K_clamp_and_monotone.1 5 (by norm_num),
   K_clamp_and_monotone.2.1
     (Set.mem_Icc.mpr ⟨by norm_num, by norm_num⟩)
     (Set.mem_Icc.mpr ⟨by norm_num, by norm_num⟩) (by norm_num),
   K_clamp_and_monotone.2.2.1 85 (by norm_num)⟩

end ShadowGen
